import Mathlib

/-!
Verification of the gPXE settings navigator/editor widget (settings_ui.c,
Myricom variant with Parent/Child navigation rows).

The C code is shallowly embedded as follows.

* A settings scope (`struct settings`) is a node in a tree.  The C code keeps
  a non-owning parent back-pointer in each node; we model scope identity as a
  path of child indices from the root of the tree (the spec's design notes
  themselves suggest "an index/handle into an externally owned scope table").
  The root has path `[]` and no parent; every other path `p` has parent
  `p.dropLast`.
* The settings registry (`SETTINGS` linker table) is an ordered list of
  setting descriptors.
* `unsigned int` values are `Nat`; where the C code relies on unsigned
  wraparound (the on-screen test `n - first_visible < SETTINGS_LIST_ROWS` and
  the `total_rows - 1` guard), subtraction is modelled explicitly modulo 2^32
  by `usub32`.
* The settings store (settings.c, not part of the sources under
  verification), the single-line edit box (editbox.c) and the `TAG_TYPE` /
  `TAG_READONLY` macros (settings.h) are external collaborators; they are
  modelled from the spec's interface section as fields of `Env` and as the
  store operations below.
* Screen output (curses calls) is ignored except for alert messages, which
  are recorded as events so that "an alert is raised" is observable.
-/

/-- screen layout constant `SETTINGS_LIST_ROW` (first screen row of the
settings list). -/
def SETTINGS_LIST_ROW : Nat := 3

/-- screen layout constant `SETTINGS_LIST_COL`. -/
def SETTINGS_LIST_COL : Nat := 1

/-- screen layout constant `SETTINGS_LIST_ROWS`: number of rows displayed per
screen (the page size P). -/
def SETTINGS_LIST_ROWS : Nat := 16

/-- `UINT_MAX` for 32-bit `unsigned int`. -/
def UINT_MAX : Nat := 4294967295

/-- 2^32, the modulus of `unsigned int` arithmetic. -/
def UINT_MOD : Nat := 4294967296

/-- C unsigned 32-bit subtraction `a - b`: both operands reduced to their
32-bit value, difference taken modulo 2^32. -/
def usub32 (a b : Nat) : Nat :=
  (a % UINT_MOD + (UINT_MOD - b % UINT_MOD)) % UINT_MOD

/-- A setting descriptor: an entry of the global `SETTINGS` registry table
(`struct setting`): name, human description, wire tag.  The value type and
the read-only predicate are derived from the tag by external macros, modelled
in `Env`. -/
structure Setting where
  name : String
  description : String
  tag : Nat
deriving DecidableEq, Repr

/-- A node of the settings tree (`struct settings`): name, tag-magic type
discriminator, ordered list of child scopes.  The parent back-pointer of the
C struct is represented by path arithmetic (`p.dropLast`). -/
inductive Scope where
  | mk (name : String) (tag_magic : Nat) (children : List Scope)

/-- name field of a scope. -/
def Scope.name : Scope → String
  | .mk n _ _ => n

/-- tag_magic field of a scope. -/
def Scope.tag_magic : Scope → Nat
  | .mk _ t _ => t

/-- children field of a scope. -/
def Scope.children : Scope → List Scope
  | .mk _ _ c => c

/-- Subtree of a scope at a path of child indices; `none` if the path leaves
the tree. -/
def Scope.sub : Scope → List Nat → Option Scope
  | s, [] => some s
  | s, i :: is =>
    match s.children.get? i with
    | some c => Scope.sub c is
    | none => none

/-- Subtree at a path, defaulting to the root for an invalid path (only ever
used on valid paths). -/
def scopeAt (root : Scope) (p : List Nat) : Scope :=
  (Scope.sub root p).getD root

/-- Keys read by `getkey()`, restricted to the symbolic codes the navigator
dispatches on, plus ordinary characters. -/
inductive Key where
  | down
  | up
  | ctrlD
  | ctrlX
  | cr
  | lf
  | ctrlC
  | ch (c : Char)
deriving DecidableEq, Repr

/-- External collaborators of the widget, modelled from the spec's interface
section: the global ordered setting registry (`SETTINGS` table), the
`TAG_TYPE` and `TAG_READONLY` macros of settings.h, the result code of the
typed store operation `storef_setting`, and the buffer transformation
performed by the external line editor when it consumes a key. -/
structure Env where
  registry : List Setting
  tagType : Nat → Nat
  tagReadonly : Nat → Bool
  storefRc : List Nat → Setting → String → Int
  editboxEdit : String → Key → String

mutual

/-- `relevant ( settings, setting )`: a setting is relevant to a scope if the
tag type of its tag equals the tag type of the scope's tag magic, or if it is
relevant to some child of the scope (recursively). -/
def relevant (env : Env) : Scope → Setting → Bool
  | .mk _ tm children, d =>
    (env.tagType d.tag == env.tagType tm) || relevantAny env children d

/-- The `list_for_each_entry` recursion of `relevant` over the children. -/
def relevantAny (env : Env) : List Scope → Setting → Bool
  | [], _ => false
  | c :: cs, d => relevant env c d || relevantAny env cs d

end

/-- Row object (`struct row_object`): a parent scope, a child scope, a
setting descriptor, or the total row count.  Scope references are carried as
paths. -/
inductive RowObject where
  | parentRow (p : List Nat)
  | childRow (p : List Nat)
  | settingRow (d : Setting)
  | rowCnt (cnt : Nat)
deriving DecidableEq, Repr

/-- The full display list enumerated by `row ( settings, n )`: first the
parent (one row, iff the scope has a parent), then one row per child in
child-list order, then one row per relevant registry descriptor in registry
order.  This is the sequence whose n-th element the three sequential
`cnt++ == n` loops of the C function return. -/
def rowObjects (env : Env) (root : Scope) (p : List Nat) : List RowObject :=
  (if p.isEmpty then [] else [RowObject.parentRow p.dropLast])
    ++ (List.range (scopeAt root p).children.length).map
        (fun i => RowObject.childRow (p ++ [i]))
    ++ ((env.registry.filter (fun d => relevant env (scopeAt root p) d)).map
        RowObject.settingRow)

/-- Total number of displayable rows of a scope. -/
def rowCount (env : Env) (root : Scope) (p : List Nat) : Nat :=
  (rowObjects env root p).length

/-- `row ( settings, n )`: the n-th row to display, or a `ROW_CNT` row
carrying the total row count once `n` is past the end. -/
def row (env : Env) (root : Scope) (p : List Nat) (n : Nat) : RowObject :=
  (rowObjects env root p).getD n (RowObject.rowCnt (rowCount env root p))

/-- The `.u.cnt` union read performed on the result of
`row ( settings, UINT_MAX )` by `init_widget`; reading the union member of a
non-count row is junk in C, modelled as 0 (unreachable when the row count
fits in an `unsigned int`). -/
def RowObject.cntOf : RowObject → Nat
  | .rowCnt c => c
  | _ => 0

/-- The settings store: an association list from (scope path, wire tag) to
the stringified stored value.  Modelled from the spec: the store exposes
fetch / typed-store / delete by (scope, descriptor); each call is atomic. -/
abbrev Store := List (List Nat × Nat × String)

/-- Local-scope lookup of a stored value. -/
def storeLookup (st : Store) (p : List Nat) (tag : Nat) : Option String :=
  (st.find? (fun e => e.1 == p && e.2.1 == tag)).map (fun e => e.2.2)

/-- `delete_setting ( settings, setting )`: modelled from the spec,
`delete(scope, descriptor) -> void` removes the stored value of the
descriptor at that scope. -/
def delete_setting (st : Store) (p : List Nat) (tag : Nat) : Store :=
  st.filter (fun e => !(e.1 == p && e.2.1 == tag))

/-- Successful typed store of a value, replacing any previous entry. -/
def storeSet (st : Store) (p : List Nat) (tag : Nat) (v : String) : Store :=
  (p, tag, v) :: delete_setting st p tag

mutual

/-- Modelled from the spec: the fetch used by `load_setting`
(`fetchf_setting`, settings.c, not in the sources) performs a typed fetch
that permits lookup in descendant scopes: the value stored at the scope
itself, or else the first value found in a depth-first, child-list-ordered
scan of its descendants. -/
def fetchSub (st : Store) (d : Setting) : Scope → List Nat → Option String
  | .mk _nm _tm children, p =>
    match storeLookup st p d.tag with
    | some v => some v
    | none => fetchChildren st d children p 0
termination_by s _ => sizeOf s

/-- Scan of a scope's children performed by `fetchSub`. -/
def fetchChildren (st : Store) (d : Setting) :
    List Scope → List Nat → Nat → Option String
  | [], _, _ => none
  | c :: cs, p, i =>
    match fetchSub st d c (p ++ [i]) with
    | some v => some v
    | none => fetchChildren st d cs p (i + 1)
termination_by l _ _ => sizeOf l

end

/-- `fetchf_setting` as used by `load_setting`: an absent value yields an
empty buffer. -/
def fetchf_setting (st : Store) (root : Scope) (p : List Nat) (d : Setting) :
    String :=
  (fetchSub st d (scopeAt root p) p).getD ""

/-- Alert messages raised by the navigator, recorded as observable events:
`alert ( " Could not set %s: %s ", name, strerror ( rc ) )` and
`alert ( " read only " )`. -/
inductive Event where
  | alertCouldNotSet (name : String) (rc : Int)
  | alertReadOnly
deriving DecidableEq, Repr

/-- The setting widget (`struct setting_widget`).  The edit box is
represented by the value buffer it edits; the C fields zeroed and immediately
reassigned by `select_setting` are carried directly. -/
structure Widget where
  settings : List Nat
  total_rows : Nat
  first_visible : Nat
  ro : RowObject
  row : Nat
  col : Nat
  editing : Bool
  value : String
deriving DecidableEq, Repr

/-- The value string read by `load_setting`: the parent's name (or `<root>`
for an unnamed root) for a parent row, the child's name for a child row, the
fetched value for a setting row.  For a `ROW_CNT` row the C code falls into
the setting branch and reads the wrong union member; that case is never
reached with a selected index below the row count and is modelled as an
empty buffer. -/
def loadValue (root : Scope) (st : Store) (p : List Nat) :
    RowObject → String
  | .parentRow pp =>
    if (scopeAt root pp).name = "" then "<root>" else (scopeAt root pp).name
  | .childRow cp => (scopeAt root cp).name
  | .settingRow d => fetchf_setting st root p d
  | .rowCnt _ => ""

/-- `load_setting`: mark as not editing and (re)read the current row's value
into the widget buffer. -/
def load_setting (root : Scope) (st : Store) (w : Widget) : Widget :=
  { w with editing := false, value := loadValue root st w.settings w.ro }

/-- `save_setting`: typed store of the widget buffer back to the settings
block, returning the store result code and the store updated iff the call
succeeded (the spec treats each store call as atomic: on failure the store
makes no change).  The C code reads `ro.u.setting`; editing is only ever in
progress on a setting row, so other rows (a junk union read in C) are
modelled as failing with the store unchanged. -/
def save_setting (env : Env) (st : Store) (w : Widget) : Int × Store :=
  match w.ro with
  | .settingRow d =>
    let rc := env.storefRc w.settings d w.value
    (rc, if rc = 0 then storeSet st w.settings d.tag w.value else st)
  | _ => (1, st)

/-- `select_setting`: reset the per-row part of the widget (the C `memset`
from the `ro` field on), set the row object from the enumerator and the
screen position, and load the row's value.  The screen row computation
`SETTINGS_LIST_ROW + index - first_visible` is C unsigned arithmetic. -/
def select_setting (env : Env) (root : Scope) (st : Store) (w : Widget)
    (index : Nat) : Widget :=
  load_setting root st
    { w with
      ro := row env root w.settings index,
      row := usub32 (SETTINGS_LIST_ROW + index) w.first_visible,
      col := SETTINGS_LIST_COL,
      editing := false,
      value := "" }

/-- The first jump-scroll loop of `reveal`:
`while ( first_visible < n ) first_visible += SETTINGS_LIST_ROWS`.  (The C
increment is unsigned; it cannot wrap for any screenful of reachable row
indices, and the loop is modelled on `Nat`.) -/
def jumpDown (fv n : Nat) : Nat :=
  if fv < n then jumpDown (fv + SETTINGS_LIST_ROWS) n else fv
termination_by n - fv
decreasing_by
  simp only [SETTINGS_LIST_ROWS]
  omega

/-- The second jump-scroll loop of `reveal`:
`while ( first_visible > n ) first_visible -= SETTINGS_LIST_ROWS`. -/
def jumpUp (fv n : Nat) : Nat :=
  if fv > n then jumpUp (fv - SETTINGS_LIST_ROWS) n else fv
termination_by fv
decreasing_by
  simp only [SETTINGS_LIST_ROWS]
  omega

/-- `reveal ( widget, n )`: return at once if row `n` is already on screen
(the C test is the single unsigned comparison
`n - first_visible < SETTINGS_LIST_ROWS`); otherwise jump-scroll by whole
pages until `first_visible` reaches `n`'s page, redraw the visible rows, and
select row `n`.  The redraw selects each visible row in turn and then row
`n`; only the final selection is widget state. -/
def reveal (env : Env) (root : Scope) (st : Store) (w : Widget) (n : Nat) :
    Widget :=
  if usub32 n w.first_visible < SETTINGS_LIST_ROWS then w
  else
    select_setting env root st
      { w with first_visible := jumpUp (jumpDown w.first_visible n) n } n

/-- `init_widget`: zero the widget, record the settings block, compute the
total row count by asking for row `UINT_MAX`, start `first_visible` at
`SETTINGS_LIST_ROWS` and reveal row 0 (forcing a full initial draw). -/
def init_widget (env : Env) (root : Scope) (st : Store) (p : List Nat) :
    Widget :=
  reveal env root st
    { settings := p,
      total_rows := (row env root p UINT_MAX).cntOf,
      first_visible := SETTINGS_LIST_ROWS,
      ro := RowObject.rowCnt 0,
      row := 0,
      col := 0,
      editing := false,
      value := "" } 0

/-- Modelled from the spec: the external line editor (`edit_editbox`,
editbox.c, not in the sources) either consumes a key, possibly updating the
buffer, or bubbles it back unconsumed; the confirm and cancel keys
(Enter / Ctrl-C) bubble. -/
def edit_editbox (env : Env) (value : String) (key : Key) :
    String × Option Key :=
  match key with
  | .cr => (value, some .cr)
  | .lf => (value, some .lf)
  | .ctrlC => (value, some .ctrlC)
  | k => (env.editboxEdit value k, none)

/-- State of one `main_loop` activation: the widget, the local selection
counter `current`, plus the store and the alert events raised so far (both
global to the session). -/
structure LoopState where
  widget : Widget
  current : Nat
  store : Store
  events : List Event
deriving DecidableEq, Repr

/-- Control flow of one `main_loop` iteration: keep looping, `return 0`
(exit the session), or `return` a settings block to navigate to. -/
inductive Ctrl where
  | next
  | quit
  | navigate (target : List Nat)
deriving DecidableEq, Repr

/-- The union member read `widget.ro.u.setting->name` used by the
store-failure alert; junk for a non-setting row (never reached: editing is
only ever in progress on a setting row). -/
def settingNameOf : RowObject → String
  | .settingRow d => d.name
  | _ => ""

/-- Editing-mode key handling of `main_loop`: the key goes through
`edit_setting` (which marks editing in progress and delegates to the edit
box).  A bubbled CR/LF attempts `save_setting`, alerting with the setting's
name and the failure reason on a nonzero result code, then falls through to
`load_setting`; a bubbled Ctrl-C goes straight to `load_setting`; any other
key leaves at most the edit buffer changed. -/
def handle_editing (env : Env) (root : Scope) (st : LoopState) (key : Key) :
    LoopState :=
  let w0 := { st.widget with editing := true }
  let fed := edit_editbox env w0.value key
  let w := { w0 with value := fed.1 }
  match fed.2 with
  | some .cr | some .lf =>
    let r := save_setting env st.store w
    { widget := load_setting root r.2 w,
      current := st.current,
      store := r.2,
      events :=
        if r.1 = 0 then st.events
        else st.events ++ [Event.alertCouldNotSet (settingNameOf w.ro) r.1] }
  | some .ctrlC => { st with widget := load_setting root st.store w }
  | _ => { st with widget := w }

/-- Selection move performed by KEY_DOWN / KEY_UP after their guards:
`reveal ( &widget, next )`, then (since `next != current`) redraw and
`select_setting ( &widget, next )`, and update `current`. -/
def do_move (env : Env) (root : Scope) (st : LoopState) (next : Nat) :
    LoopState :=
  { st with
    widget :=
      select_setting env root st.store
        (reveal env root st.store st.widget next) next,
    current := next }

/-- The default arm of the non-editing switch: enter editing (feeding the
pressed key to the edit box) if the selected row is a setting that is not
read-only, otherwise raise the `" read only "` alert and change nothing. -/
def try_edit (env : Env) (st : LoopState) (key : Key) : Ctrl × LoopState :=
  match st.widget.ro with
  | .settingRow d =>
    if env.tagReadonly d.tag then
      (Ctrl.next, { st with events := st.events ++ [Event.alertReadOnly] })
    else
      let w0 := { st.widget with editing := true }
      let fed := edit_editbox env w0.value key
      (Ctrl.next, { st with widget := { w0 with value := fed.1 } })
  | _ => (Ctrl.next, { st with events := st.events ++ [Event.alertReadOnly] })

/-- The CR/LF arm of the non-editing switch: a non-setting row is returned
as the loop result (`return widget.ro.u.child`; for a parent row the union
member aliases the stored parent pointer).  For a `ROW_CNT` row the C code
returns the stored count reinterpreted as a pointer; only a zero count (a
null pointer, ending the session) is reachable there, and the arm is
modelled as quitting.  A setting row falls through to the default arm. -/
def handle_confirm (env : Env) (st : LoopState) (key : Key) :
    Ctrl × LoopState :=
  match st.widget.ro with
  | .parentRow pp => (Ctrl.navigate pp, st)
  | .childRow cp => (Ctrl.navigate cp, st)
  | .rowCnt _ => (Ctrl.quit, st)
  | .settingRow _ => try_edit env st key

/-- Non-editing key handling of `main_loop`: Down/Up move the selection by
one under their boundary guards (C unsigned comparison against
`total_rows - 1`); Ctrl-D deletes the selected setting (alerting on a
structural row) and re-selects the same index; Ctrl-X exits; CR/LF navigate
or edit; anything else tries to enter editing. -/
def handle_viewing (env : Env) (root : Scope) (st : LoopState) (key : Key) :
    Ctrl × LoopState :=
  match key with
  | .down =>
    if st.current < usub32 st.widget.total_rows 1 then
      (Ctrl.next, do_move env root st (st.current + 1))
    else (Ctrl.next, st)
  | .up =>
    if 0 < st.current then (Ctrl.next, do_move env root st (st.current - 1))
    else (Ctrl.next, st)
  | .ctrlD =>
    match st.widget.ro with
    | .settingRow d =>
      let store' := delete_setting st.store st.widget.settings d.tag
      (Ctrl.next,
       { st with
         widget := select_setting env root store' st.widget st.current,
         store := store' })
    | _ => (Ctrl.next, { st with events := st.events ++ [Event.alertReadOnly] })
  | .ctrlX => (Ctrl.quit, st)
  | .cr => handle_confirm env st key
  | .lf => handle_confirm env st key
  | k => try_edit env st k

/-- One iteration of `main_loop` processing one key from `getkey()`. -/
def main_loop_step (env : Env) (root : Scope) (st : LoopState) (key : Key) :
    Ctrl × LoopState :=
  if st.widget.editing then (Ctrl.next, handle_editing env root st key)
  else handle_viewing env root st key

/-- Entry into one `main_loop` activation: `current = 0` and
`init_widget`. -/
def session_init (env : Env) (root : Scope) (st : Store) (p : List Nat) :
    LoopState :=
  { widget := init_widget env root st p,
    current := 0,
    store := st,
    events := [] }

/-- One key of the whole `settings_ui` session: a `main_loop` iteration,
with the do-while of `settings_ui` re-entering `main_loop` on the returned
settings block, and a null return ending the session. -/
def session_step (env : Env) (root : Scope) (st : LoopState) (key : Key) :
    Option LoopState :=
  match main_loop_step env root st key with
  | (Ctrl.next, st') => some st'
  | (Ctrl.quit, _) => none
  | (Ctrl.navigate q, st') =>
    some
      { widget := init_widget env root st'.store q,
        current := 0,
        store := st'.store,
        events := st'.events }

/-- The `settings_ui` session driven by a finite list of keys; `none` once
the operator has exited. -/
def session_run (env : Env) (root : Scope) (st : LoopState) :
    List Key → Option LoopState
  | [] => some st
  | k :: ks =>
    match session_step env root st k with
    | some st' => session_run env root st' ks
    | none => none

/-! ## Basic facts about the embedded operations -/

theorem load_setting_settings (root : Scope) (st : Store) (w : Widget) :
    (load_setting root st w).settings = w.settings := rfl

theorem load_setting_total_rows (root : Scope) (st : Store) (w : Widget) :
    (load_setting root st w).total_rows = w.total_rows := rfl

theorem load_setting_first_visible (root : Scope) (st : Store) (w : Widget) :
    (load_setting root st w).first_visible = w.first_visible := rfl

theorem load_setting_ro (root : Scope) (st : Store) (w : Widget) :
    (load_setting root st w).ro = w.ro := rfl

theorem load_setting_editing (root : Scope) (st : Store) (w : Widget) :
    (load_setting root st w).editing = false := rfl

theorem select_setting_settings (env : Env) (root : Scope) (st : Store)
    (w : Widget) (i : Nat) :
    (select_setting env root st w i).settings = w.settings := rfl

theorem select_setting_total_rows (env : Env) (root : Scope) (st : Store)
    (w : Widget) (i : Nat) :
    (select_setting env root st w i).total_rows = w.total_rows := rfl

theorem select_setting_first_visible (env : Env) (root : Scope) (st : Store)
    (w : Widget) (i : Nat) :
    (select_setting env root st w i).first_visible = w.first_visible := rfl

theorem select_setting_ro (env : Env) (root : Scope) (st : Store)
    (w : Widget) (i : Nat) :
    (select_setting env root st w i).ro = row env root w.settings i := rfl

theorem select_setting_editing (env : Env) (root : Scope) (st : Store)
    (w : Widget) (i : Nat) :
    (select_setting env root st w i).editing = false := rfl

theorem reveal_of_on_screen (env : Env) (root : Scope) (st : Store)
    (w : Widget) (n : Nat)
    (h : usub32 n w.first_visible < SETTINGS_LIST_ROWS) :
    reveal env root st w n = w := by
  simp [reveal, h]

theorem reveal_of_off_screen (env : Env) (root : Scope) (st : Store)
    (w : Widget) (n : Nat)
    (h : ¬ usub32 n w.first_visible < SETTINGS_LIST_ROWS) :
    reveal env root st w n =
      select_setting env root st
        { w with first_visible := jumpUp (jumpDown w.first_visible n) n } n := by
  simp [reveal, h]

theorem reveal_settings (env : Env) (root : Scope) (st : Store) (w : Widget)
    (n : Nat) : (reveal env root st w n).settings = w.settings := by
  unfold reveal
  split
  · rfl
  · rfl

theorem reveal_total_rows (env : Env) (root : Scope) (st : Store) (w : Widget)
    (n : Nat) : (reveal env root st w n).total_rows = w.total_rows := by
  unfold reveal
  split
  · rfl
  · rfl

/-! Facts about the two jump-scroll loops. -/

theorem jumpDown_ge (fv n : Nat) : n ≤ jumpDown fv n := by
  rw [jumpDown]
  split
  · exact jumpDown_ge (fv + SETTINGS_LIST_ROWS) n
  · omega
termination_by n - fv
decreasing_by
  simp only [SETTINGS_LIST_ROWS]
  omega

theorem jumpUp_le (fv n : Nat) : jumpUp fv n ≤ n := by
  rw [jumpUp]
  split
  · exact jumpUp_le (fv - SETTINGS_LIST_ROWS) n
  · omega
termination_by fv
decreasing_by
  simp only [SETTINGS_LIST_ROWS]
  omega

theorem jumpUp_gt (fv n : Nat) (h : n ≤ fv ∨ n < fv + SETTINGS_LIST_ROWS) :
    n < jumpUp fv n + SETTINGS_LIST_ROWS := by
  rw [jumpUp]
  split
  · refine jumpUp_gt (fv - SETTINGS_LIST_ROWS) n (Or.inr ?_)
    simp only [SETTINGS_LIST_ROWS] at *
    omega
  · simp only [SETTINGS_LIST_ROWS] at *
    omega
termination_by fv
decreasing_by
  simp only [SETTINGS_LIST_ROWS]
  omega

theorem jumpDown_mod (fv n : Nat) :
    jumpDown fv n % SETTINGS_LIST_ROWS = fv % SETTINGS_LIST_ROWS := by
  rw [jumpDown]
  split
  · rw [jumpDown_mod (fv + SETTINGS_LIST_ROWS) n]
    simp [SETTINGS_LIST_ROWS, Nat.add_mod_right]
  · rfl
termination_by n - fv
decreasing_by
  simp only [SETTINGS_LIST_ROWS]
  omega

theorem jumpUp_mod (fv n : Nat) (h : fv % SETTINGS_LIST_ROWS = 0) :
    jumpUp fv n % SETTINGS_LIST_ROWS = 0 := by
  rw [jumpUp]
  split
  · refine jumpUp_mod (fv - SETTINGS_LIST_ROWS) n ?_
    simp only [SETTINGS_LIST_ROWS] at *
    omega
  · exact h
termination_by fv
decreasing_by
  simp only [SETTINGS_LIST_ROWS]
  omega

/-! Facts about C unsigned subtraction. -/

theorem usub32_of_le (a b : Nat) (hb : b ≤ a) (hlt : a - b < UINT_MOD) :
    usub32 a b = a - b := by
  simp only [usub32, UINT_MOD] at *
  omega

theorem usub32_ge_of_lt (a b : Nat) (hab : a < b)
    (h : b - a ≤ UINT_MOD - SETTINGS_LIST_ROWS) :
    SETTINGS_LIST_ROWS ≤ usub32 a b := by
  simp only [usub32, UINT_MOD, SETTINGS_LIST_ROWS] at *
  omega

/-! ## Claim C9 -/

/-- C9: the on-screen test in `reveal`, written as the single unsigned
comparison `n - first_visible < SETTINGS_LIST_ROWS`, is equivalent to the
containment `first_visible ≤ n < first_visible + SETTINGS_LIST_ROWS` for
every `n` and `first_visible` below `2^32 - SETTINGS_LIST_ROWS`; when
`n < first_visible` the subtraction wraps modulo 2^32 to a value of at least
`SETTINGS_LIST_ROWS`, so the test correctly rejects targets below the
window. -/
theorem claim_C9_on_screen_test (n fv : Nat)
    (h1 : n < UINT_MOD - SETTINGS_LIST_ROWS)
    (h2 : fv < UINT_MOD - SETTINGS_LIST_ROWS) :
    (usub32 n fv < SETTINGS_LIST_ROWS ↔ fv ≤ n ∧ n < fv + SETTINGS_LIST_ROWS)
      ∧ (n < fv → SETTINGS_LIST_ROWS ≤ usub32 n fv) := by
  simp only [usub32, UINT_MOD, SETTINGS_LIST_ROWS] at *
  constructor
  · constructor
    · intro h
      omega
    · intro h
      omega
  · intro h
    omega

/-- Witness for C9: n = 40 lies in the window starting at 32 and the test
accepts; n = 5 lies below it and the wrapped subtraction is at least the
page size. -/
theorem claim_C9_on_screen_test_witness :
    usub32 40 32 < SETTINGS_LIST_ROWS ∧ SETTINGS_LIST_ROWS ≤ usub32 5 32 := by
  constructor
  · exact (claim_C9_on_screen_test 40 32 (by decide) (by decide)).1.mpr
      (by decide)
  · exact (claim_C9_on_screen_test 5 32 (by decide) (by decide)).2 (by decide)

/-! ## Claim C7 -/

/-- C7: `reveal ( n )` is idempotent: for every widget state and every index
n, invoking it twice consecutively gives the same widget state (visible
window and selection included) as invoking it once: after the first call n
is on screen, so the second call returns without repositioning. -/
theorem claim_C7_reveal_idempotent (env : Env) (root : Scope) (st : Store)
    (w : Widget) (n : Nat) :
    reveal env root st (reveal env root st w n) n = reveal env root st w n := by
  by_cases h : usub32 n w.first_visible < SETTINGS_LIST_ROWS
  · rw [reveal_of_on_screen env root st w n h,
      reveal_of_on_screen env root st w n h]
  · rw [reveal_of_off_screen env root st w n h]
    have h1 : jumpUp (jumpDown w.first_visible n) n ≤ n := jumpUp_le _ _
    have h2 : n < jumpUp (jumpDown w.first_visible n) n + SETTINGS_LIST_ROWS :=
      jumpUp_gt _ n (Or.inl (jumpDown_ge _ _))
    apply reveal_of_on_screen
    rw [select_setting_first_visible]
    show usub32 n (jumpUp (jumpDown w.first_visible n) n) < SETTINGS_LIST_ROWS
    have h3 : usub32 n (jumpUp (jumpDown w.first_visible n) n) =
        n - jumpUp (jumpDown w.first_visible n) n := by
      refine usub32_of_le _ _ h1 ?_
      simp only [SETTINGS_LIST_ROWS] at h2
      simp only [UINT_MOD]
      omega
    rw [h3]
    simp only [SETTINGS_LIST_ROWS] at *
    omega

/-! ## Claim C1: the row enumerator's canonical order -/

/-- The value of the C counter `cnt` after the parent check of `row`: 1 iff
the scope has a parent. -/
def parentCnt (p : List Nat) : Nat := if p.isEmpty then 0 else 1

/-- The registry descriptors relevant to the scope at `p`, in registry
order (the settings enumerated by the third loop of `row`). -/
def relevantSettings (env : Env) (root : Scope) (p : List Nat) : List Setting :=
  env.registry.filter (fun d => relevant env (scopeAt root p) d)

theorem rowObjects_eq (env : Env) (root : Scope) (p : List Nat) :
    rowObjects env root p =
      (if p.isEmpty then [] else [RowObject.parentRow p.dropLast])
        ++ (List.range (scopeAt root p).children.length).map
            (fun i => RowObject.childRow (p ++ [i]))
        ++ (relevantSettings env root p).map RowObject.settingRow := rfl

theorem rowCount_eq (env : Env) (root : Scope) (p : List Nat) :
    rowCount env root p =
      parentCnt p + (scopeAt root p).children.length +
        (relevantSettings env root p).length := by
  simp only [rowCount, rowObjects_eq, List.length_append, List.length_map,
    List.length_range, parentCnt]
  split
  · simp
  · simp

theorem parentRow_mem (env : Env) (root : Scope) (p q : List Nat)
    (h : RowObject.parentRow q ∈ rowObjects env root p) :
    ¬ p.isEmpty ∧ q = p.dropLast := by
  rw [rowObjects_eq] at h
  by_cases hpe : p.isEmpty
  · simp [hpe] at h
  · simp [hpe] at h
    exact ⟨hpe, h⟩

theorem childRow_mem (env : Env) (root : Scope) (p q : List Nat)
    (h : RowObject.childRow q ∈ rowObjects env root p) :
    ∃ i, i < (scopeAt root p).children.length ∧ q = p ++ [i] := by
  rw [rowObjects_eq] at h
  by_cases hpe : p.isEmpty
  · simp [hpe] at h
    rcases h with ⟨i, hi, hq⟩
    exact ⟨i, hi, hq.symm⟩
  · simp [hpe] at h
    rcases h with ⟨i, hi, hq⟩
    exact ⟨i, hi, hq.symm⟩

theorem rowCnt_not_mem (env : Env) (root : Scope) (p : List Nat) (c : Nat) :
    RowObject.rowCnt c ∉ rowObjects env root p := by
  intro h
  rw [rowObjects_eq] at h
  by_cases hpe : p.isEmpty
  · simp [hpe] at h
  · simp [hpe] at h

theorem row_mem_or_cnt (env : Env) (root : Scope) (p : List Nat) (n : Nat) :
    (n < rowCount env root p ∧ row env root p n ∈ rowObjects env root p) ∨
      (rowCount env root p ≤ n ∧
        row env root p n = RowObject.rowCnt (rowCount env root p)) := by
  by_cases h : n < (rowObjects env root p).length
  · left
    refine ⟨h, ?_⟩
    rw [row, List.getD_eq_getElem _ _ h]
    exact List.getElem_mem h
  · right
    refine ⟨by rw [rowCount]; omega, ?_⟩
    rw [row, List.getD_eq_default]
    omega

theorem row_zero_parent (env : Env) (root : Scope) (p : List Nat)
    (hp : ¬ p.isEmpty) :
    row env root p 0 = RowObject.parentRow p.dropLast := by
  simp [row, rowObjects_eq, hp]

theorem tailRows_eq (env : Env) (root : Scope) (p : List Nat) :
    rowObjects env root p =
      (if p.isEmpty then [] else [RowObject.parentRow p.dropLast])
        ++ ((List.range (scopeAt root p).children.length).map
              (fun i => RowObject.childRow (p ++ [i]))
            ++ (relevantSettings env root p).map RowObject.settingRow) := by
  rw [rowObjects_eq, List.append_assoc]

theorem row_nil_eq (env : Env) (root : Scope) (k : Nat) :
    row env root [] k =
      ((List.range (scopeAt root []).children.length).map
          (fun i => RowObject.childRow ([i]))
        ++ (relevantSettings env root []).map RowObject.settingRow).getD k
        (RowObject.rowCnt (rowCount env root [])) := by
  rw [row, tailRows_eq]
  rfl

theorem row_cons_succ (env : Env) (root : Scope) (a : Nat) (as : List Nat)
    (k : Nat) :
    row env root (a :: as) (1 + k) =
      ((List.range (scopeAt root (a :: as)).children.length).map
          (fun i => RowObject.childRow ((a :: as) ++ [i]))
        ++ (relevantSettings env root (a :: as)).map RowObject.settingRow).getD
        k (RowObject.rowCnt (rowCount env root (a :: as))) := by
  rw [row, tailRows_eq, Nat.add_comm 1 k]
  show (RowObject.parentRow (a :: as).dropLast ::
      ((List.range (scopeAt root (a :: as)).children.length).map
          (fun i => RowObject.childRow ((a :: as) ++ [i]))
        ++ (relevantSettings env root (a :: as)).map
            RowObject.settingRow)).getD (k + 1)
      (RowObject.rowCnt (rowCount env root (a :: as))) = _
  rw [List.getD_cons_succ]

theorem tailRows_child (env : Env) (root : Scope) (p : List Nat) (d : RowObject)
    (i : Nat) (hi : i < (scopeAt root p).children.length) :
    ((List.range (scopeAt root p).children.length).map
        (fun i => RowObject.childRow (p ++ [i]))
      ++ (relevantSettings env root p).map RowObject.settingRow).getD i d =
      RowObject.childRow (p ++ [i]) := by
  rw [List.getD_eq_getElem?_getD, List.getElem?_append_left (by simpa using hi),
    List.getElem?_map, List.getElem?_range hi]
  rfl

theorem tailRows_setting (env : Env) (root : Scope) (p : List Nat)
    (d : RowObject) (j : Nat) (hj : j < (relevantSettings env root p).length) :
    ((List.range (scopeAt root p).children.length).map
        (fun i => RowObject.childRow (p ++ [i]))
      ++ (relevantSettings env root p).map RowObject.settingRow).getD
      ((scopeAt root p).children.length + j) d =
      RowObject.settingRow ((relevantSettings env root p).get ⟨j, hj⟩) := by
  rw [List.getD_eq_getElem?_getD, List.getElem?_append_right (by simp)]
  simp only [List.length_map, List.length_range, Nat.add_sub_cancel_left]
  rw [List.getElem?_map, List.getElem?_eq_getElem hj]
  simp

theorem row_child_index (env : Env) (root : Scope) (p : List Nat) (i : Nat)
    (hi : i < (scopeAt root p).children.length) :
    row env root p (parentCnt p + i) = RowObject.childRow (p ++ [i]) := by
  cases p with
  | nil =>
    have hp : parentCnt ([] : List Nat) = 0 := rfl
    rw [hp, Nat.zero_add, row_nil_eq]
    exact tailRows_child env root [] _ i hi
  | cons a as =>
    have hp : parentCnt (a :: as) = 1 := rfl
    rw [hp, Nat.add_comm 1 i]
    rw [Nat.add_comm i 1, row_cons_succ]
    exact tailRows_child env root (a :: as) _ i hi

theorem row_setting_index (env : Env) (root : Scope) (p : List Nat) (j : Nat)
    (hj : j < (relevantSettings env root p).length) :
    row env root p (parentCnt p + (scopeAt root p).children.length + j) =
      RowObject.settingRow ((relevantSettings env root p).get ⟨j, hj⟩) := by
  cases p with
  | nil =>
    have hp : parentCnt ([] : List Nat) = 0 := rfl
    rw [hp, Nat.zero_add, row_nil_eq]
    exact tailRows_setting env root [] _ j hj
  | cons a as =>
    have hp : parentCnt (a :: as) = 1 := rfl
    rw [hp, Nat.add_assoc, row_cons_succ]
    exact tailRows_setting env root (a :: as) _ j hj

theorem row_past_end (env : Env) (root : Scope) (p : List Nat) (n : Nat)
    (hn : rowCount env root p <= n) :
    row env root p n = RowObject.rowCnt (rowCount env root p) := by
  rw [row, List.getD_eq_default]
  exact hn

/-- C1: for every scope and index n, `row ( scope, n )` returns the n-th row
in canonical order — a Parent row at index 0 iff the scope has a parent, then
one Child row per direct child in child-list order, then one Setting row per
relevant registry descriptor (relevance being the recursive tag-type match
over the scope's subtree) in registry order — and once n reaches or exceeds
the true row count it returns a Count row carrying that true count. -/
theorem claim_C1_row_canonical_order (env : Env) (root : Scope) (p : List Nat)
    (hp : (Scope.sub root p).isSome) :
    (p ≠ [] → row env root p 0 = RowObject.parentRow p.dropLast) ∧
    (p = [] → ∀ q, row env root p 0 ≠ RowObject.parentRow q) ∧
    (∀ i, i < (scopeAt root p).children.length →
      row env root p (parentCnt p + i) = RowObject.childRow (p ++ [i])) ∧
    (∀ j (hj : j < (relevantSettings env root p).length),
      row env root p (parentCnt p + (scopeAt root p).children.length + j) =
        RowObject.settingRow ((relevantSettings env root p).get ⟨j, hj⟩)) ∧
    rowCount env root p =
      parentCnt p + (scopeAt root p).children.length +
        (relevantSettings env root p).length ∧
    (∀ n, rowCount env root p ≤ n →
      row env root p n = RowObject.rowCnt (rowCount env root p)) := by
  refine ⟨?_, ?_, ?_, ?_, rowCount_eq env root p, row_past_end env root p⟩
  · intro hne
    refine row_zero_parent env root p ?_
    intro hie
    exact hne (List.isEmpty_iff.mp hie)
  · intro hpe q heq
    subst hpe
    rcases row_mem_or_cnt env root [] 0 with ⟨_, hmem⟩ | ⟨_, hcnt⟩
    · rw [heq] at hmem
      exact (parentRow_mem env root [] q hmem).1 rfl
    · rw [heq] at hcnt
      cases hcnt
  · exact fun i hi => row_child_index env root p i hi
  · exact fun j hj => row_setting_index env root p j hj

/-- The single relevant setting of the spec's Example B. -/
def exSettingD : Setting := { name := "D", description := "d", tag := 9 }

/-- Environment of the spec's Example B: a one-descriptor registry. -/
def exEnvB : Env :=
  { registry := [exSettingD],
    tagType := fun t => t,
    tagReadonly := fun _ => false,
    storefRc := fun _ _ _ => 0,
    editboxEdit := fun v _ => v }

/-- Scope tree of the spec's Example B: scope X (path [0]) with parent P,
children Y and Z, and tag magic matching setting D. -/
def exRootB : Scope :=
  Scope.mk "P" 3 [Scope.mk "X" 9 [Scope.mk "Y" 4 [], Scope.mk "Z" 5 []]]

/-- Witness for C1 at the spec's Example B. -/
theorem claim_C1_row_canonical_order_witness :
    row exEnvB exRootB [0] 0 = RowObject.parentRow [] ∧
    row exEnvB exRootB [0] 1 = RowObject.childRow [0, 0] ∧
    row exEnvB exRootB [0] 2 = RowObject.childRow [0, 1] ∧
    row exEnvB exRootB [0] 3 = RowObject.settingRow exSettingD ∧
    rowCount exEnvB exRootB [0] = 4 ∧
    row exEnvB exRootB [0] 4 = RowObject.rowCnt 4 := by
  have h := claim_C1_row_canonical_order exEnvB exRootB [0] (by decide)
  have hch : (scopeAt exRootB [0]).children.length = 2 := by decide
  have hrel : (relevantSettings exEnvB exRootB [0]).length = 1 := by decide
  have hcnt : rowCount exEnvB exRootB [0] = 4 := by
    rw [h.2.2.2.2.1, hch, hrel]
    decide
  refine ⟨?_, ?_, ?_, ?_, hcnt, ?_⟩
  · have := h.1 (by decide)
    simpa using this
  · have := h.2.2.1 0 (by rw [hch]; decide)
    simpa [parentCnt] using this
  · have := h.2.2.1 1 (by rw [hch]; decide)
    simpa [parentCnt] using this
  · have h4 := h.2.2.2.1 0 (by rw [hrel]; decide)
    rw [hch] at h4
    have h4b : row exEnvB exRootB [0] (parentCnt [0] + 2 + 0) =
        RowObject.settingRow exSettingD := h4
    simpa [parentCnt] using h4b
  · have h6 := h.2.2.2.2.2 4 (by rw [hcnt])
    rw [hcnt] at h6
    exact h6

/-! ## Claim C3: rejected commits leave display and store in agreement -/

/-- C3: when a commit (confirm key while editing a setting row) is rejected
by the typed store (nonzero result code), an alert naming the setting and
the failure reason is raised, the store is unchanged, the widget leaves
editing, and the displayed value is reloaded from the store, equalling an
immediate subsequent fetch of the same (scope, descriptor). -/
theorem claim_C3_commit_failure (env : Env) (root : Scope) (st : LoopState)
    (d : Setting) (key : Key)
    (he : st.widget.editing = true)
    (hro : st.widget.ro = RowObject.settingRow d)
    (hkey : key = Key.cr ∨ key = Key.lf)
    (hrc : env.storefRc st.widget.settings d st.widget.value ≠ 0) :
    (main_loop_step env root st key).1 = Ctrl.next ∧
    (main_loop_step env root st key).2.store = st.store ∧
    (main_loop_step env root st key).2.events =
      st.events ++ [Event.alertCouldNotSet d.name
        (env.storefRc st.widget.settings d st.widget.value)] ∧
    (main_loop_step env root st key).2.widget.editing = false ∧
    (main_loop_step env root st key).2.widget.value =
      fetchf_setting (main_loop_step env root st key).2.store root
        (main_loop_step env root st key).2.widget.settings d := by
  rcases hkey with rfl | rfl <;>
    simp [main_loop_step, he, handle_editing, edit_editbox, save_setting, hro,
      hrc, load_setting, loadValue, settingNameOf]

/-- Witness environment whose typed store rejects every write with result
code 22. -/
def exEnvFail : Env :=
  { registry := [exSettingD],
    tagType := fun t => t,
    tagReadonly := fun _ => false,
    storefRc := fun _ _ _ => 22,
    editboxEdit := fun v _ => v }

/-- Widget state editing setting D of Example B with buffer "abc". -/
def exStEdit : LoopState :=
  { widget :=
      { settings := [0], total_rows := 4, first_visible := 0,
        ro := RowObject.settingRow exSettingD, row := 6, col := 1,
        editing := true, value := "abc" },
    current := 3,
    store := [],
    events := [] }

/-- Witness for C3: committing "abc" to the rejecting store raises the
alert, keeps the store empty, leaves editing, and redisplays the fetched
(absent, hence empty) value. -/
theorem claim_C3_commit_failure_witness :
    (main_loop_step exEnvFail exRootB exStEdit Key.cr).2.store = [] ∧
    (main_loop_step exEnvFail exRootB exStEdit Key.cr).2.events =
      [Event.alertCouldNotSet "D" 22] ∧
    (main_loop_step exEnvFail exRootB exStEdit Key.cr).2.widget.editing =
      false ∧
    (main_loop_step exEnvFail exRootB exStEdit Key.cr).2.widget.value =
      fetchf_setting [] exRootB [0] exSettingD := by
  have h := claim_C3_commit_failure exEnvFail exRootB exStEdit exSettingD
    Key.cr rfl rfl (Or.inl rfl) (by decide)
  refine ⟨h.2.1, ?_, h.2.2.2.1, ?_⟩
  · rw [h.2.2.1]
    rfl
  · rw [h.2.2.2.2, h.2.1]
    rfl

/-! ## Claim C10: confirm and cancel always land back in Viewing -/

/-- C10: after any confirm (CR/LF) or cancel (Ctrl-C) key handled in the
Editing state — including a confirm whose store write fails — the widget is
back in the Viewing state, because the handler ends in `load_setting`, which
unconditionally clears the editing flag. -/
theorem claim_C10_editing_returns_to_viewing (env : Env) (root : Scope)
    (st : LoopState) (key : Key)
    (he : st.widget.editing = true)
    (hkey : key = Key.cr ∨ key = Key.lf ∨ key = Key.ctrlC) :
    (main_loop_step env root st key).1 = Ctrl.next ∧
    (main_loop_step env root st key).2.widget.editing = false := by
  rcases hkey with rfl | rfl | rfl <;>
    simp [main_loop_step, he, handle_editing, edit_editbox, load_setting]

/-- Witness for C10: cancelling the editing session of the C3 witness state
returns to Viewing. -/
theorem claim_C10_editing_returns_to_viewing_witness :
    (main_loop_step exEnvFail exRootB exStEdit Key.ctrlC).1 = Ctrl.next ∧
    (main_loop_step exEnvFail exRootB exStEdit Key.ctrlC).2.widget.editing =
      false :=
  claim_C10_editing_returns_to_viewing exEnvFail exRootB exStEdit Key.ctrlC
    rfl (Or.inr (Or.inr rfl))

/-! ## Claim C4: policy violations are rejected without any state change -/

/-- A structural (Parent or Child) row. -/
def structuralRow : RowObject → Bool
  | .parentRow _ => true
  | .childRow _ => true
  | _ => false

/-- C4: any attempt to edit a read-only setting row (any key that is not
movement, delete, or exit) or to edit a structural row (any key that is not
movement, exit, or the navigating confirm), and any attempt to delete a
structural row, is rejected before entering Editing and before any store
call: the only effect is the `" read only "` alert — widget, selection and
store are unchanged and the state stays Viewing. -/
theorem claim_C4_policy_rejection (env : Env) (root : Scope) (st : LoopState)
    (key : Key)
    (hv : st.widget.editing = false)
    (h : ((∃ d, st.widget.ro = RowObject.settingRow d ∧
            env.tagReadonly d.tag = true) ∧
          key ≠ Key.down ∧ key ≠ Key.up ∧ key ≠ Key.ctrlD ∧ key ≠ Key.ctrlX)
        ∨ (structuralRow st.widget.ro = true ∧
           key ≠ Key.down ∧ key ≠ Key.up ∧ key ≠ Key.ctrlX ∧
           key ≠ Key.cr ∧ key ≠ Key.lf)) :
    main_loop_step env root st key =
      (Ctrl.next, { st with events := st.events ++ [Event.alertReadOnly] }) := by
  rcases h with ⟨⟨d, hro, hrd⟩, h1, h2, h3, h4⟩ | ⟨hs, h1, h2, h3, h4, h5⟩
  · cases key with
    | down => exact absurd rfl h1
    | up => exact absurd rfl h2
    | ctrlD => exact absurd rfl h3
    | ctrlX => exact absurd rfl h4
    | cr =>
      simp [main_loop_step, hv, handle_viewing, handle_confirm, try_edit, hro,
        hrd]
    | lf =>
      simp [main_loop_step, hv, handle_viewing, handle_confirm, try_edit, hro,
        hrd]
    | ctrlC => simp [main_loop_step, hv, handle_viewing, try_edit, hro, hrd]
    | ch c => simp [main_loop_step, hv, handle_viewing, try_edit, hro, hrd]
  · rcases hro : st.widget.ro with q | q | d | c
    · cases key with
      | down => exact absurd rfl h1
      | up => exact absurd rfl h2
      | ctrlX => exact absurd rfl h3
      | cr => exact absurd rfl h4
      | lf => exact absurd rfl h5
      | ctrlD => simp [main_loop_step, hv, handle_viewing, hro]
      | ctrlC => simp [main_loop_step, hv, handle_viewing, try_edit, hro]
      | ch c => simp [main_loop_step, hv, handle_viewing, try_edit, hro]
    · cases key with
      | down => exact absurd rfl h1
      | up => exact absurd rfl h2
      | ctrlX => exact absurd rfl h3
      | cr => exact absurd rfl h4
      | lf => exact absurd rfl h5
      | ctrlD => simp [main_loop_step, hv, handle_viewing, hro]
      | ctrlC => simp [main_loop_step, hv, handle_viewing, try_edit, hro]
      | ch c => simp [main_loop_step, hv, handle_viewing, try_edit, hro]
    · rw [hro] at hs
      simp [structuralRow] at hs
    · rw [hro] at hs
      simp [structuralRow] at hs

/-- Viewing state at row 0 (the Parent row) of Example B's scope X. -/
def exStView : LoopState :=
  { widget :=
      { settings := [0], total_rows := 4, first_visible := 0,
        ro := RowObject.parentRow [], row := 3, col := 1,
        editing := false, value := "P" },
    current := 0,
    store := [],
    events := [] }

/-- Witness for C4: Ctrl-D on the selected Parent row only raises the
`" read only "` alert. -/
theorem claim_C4_policy_rejection_witness :
    main_loop_step exEnvB exRootB exStView Key.ctrlD =
      (Ctrl.next,
       { exStView with events := [Event.alertReadOnly] }) :=
  claim_C4_policy_rejection exEnvB exRootB exStView Key.ctrlD rfl
    (Or.inr ⟨rfl, by decide, by decide, by decide, by decide, by decide⟩)

/-! ## Claim C5: confirm on a structural row navigates, exit key exits -/

/-- C5: pressing the confirm key (CR/LF) while a Parent or Child row is
selected (not editing) terminates the navigator loop returning that row's
target scope, and the session entry point re-enters the loop on the returned
scope (fresh widget, selection 0, store and events carried over); the exit
key terminates the loop returning no further scope, ending the session. -/
theorem claim_C5_navigation (env : Env) (root : Scope) (st : LoopState)
    (hv : st.widget.editing = false) :
    (∀ pp, st.widget.ro = RowObject.parentRow pp →
      main_loop_step env root st Key.cr = (Ctrl.navigate pp, st) ∧
      main_loop_step env root st Key.lf = (Ctrl.navigate pp, st) ∧
      session_step env root st Key.cr =
        some
          { widget := init_widget env root st.store pp, current := 0,
            store := st.store, events := st.events }) ∧
    (∀ cp, st.widget.ro = RowObject.childRow cp →
      main_loop_step env root st Key.cr = (Ctrl.navigate cp, st) ∧
      main_loop_step env root st Key.lf = (Ctrl.navigate cp, st) ∧
      session_step env root st Key.cr =
        some
          { widget := init_widget env root st.store cp, current := 0,
            store := st.store, events := st.events }) ∧
    main_loop_step env root st Key.ctrlX = (Ctrl.quit, st) ∧
    session_step env root st Key.ctrlX = none := by
  refine ⟨?_, ?_, ?_, ?_⟩
  · intro pp hro
    refine ⟨?_, ?_, ?_⟩ <;>
      simp [main_loop_step, hv, handle_viewing, handle_confirm, hro,
        session_step]
  · intro cp hro
    refine ⟨?_, ?_, ?_⟩ <;>
      simp [main_loop_step, hv, handle_viewing, handle_confirm, hro,
        session_step]
  · simp [main_loop_step, hv, handle_viewing]
  · simp [session_step, main_loop_step, hv, handle_viewing]

/-- Witness for C5: CR on the Parent row of Example B's scope X navigates to
the root, and the session restarts there; Ctrl-X ends the session. -/
theorem claim_C5_navigation_witness :
    main_loop_step exEnvB exRootB exStView Key.cr =
      (Ctrl.navigate [], exStView) ∧
    session_step exEnvB exRootB exStView Key.cr =
      some
        { widget := init_widget exEnvB exRootB [] [], current := 0,
          store := [], events := [] } ∧
    session_step exEnvB exRootB exStView Key.ctrlX = none := by
  have h := claim_C5_navigation exEnvB exRootB exStView rfl
  have hp := h.1 [] rfl
  exact ⟨hp.1, hp.2.2, h.2.2.2⟩

/-! ## Claim C2: what deleting a setting row actually does -/

theorem storeLookup_delete (st : Store) (p : List Nat) (tag : Nat) :
    storeLookup (delete_setting st p tag) p tag = none := by
  rw [storeLookup]
  have h : List.find? (fun e => e.1 == p && e.2.1 == tag)
      (delete_setting st p tag) = none := by
    rw [List.find?_eq_none]
    intro x hx
    rw [delete_setting, List.mem_filter] at hx
    have hx2 := hx.2
    simp only [Bool.not_eq_true'] at hx2
    simp [hx2]
  rw [h]
  rfl

/-- Registry descriptors of the C2 scenario: two settings relevant to the
root scope. -/
def exD1 : Setting := { name := "D1", description := "", tag := 7 }

/-- Second descriptor of the C2 scenario. -/
def exD2 : Setting := { name := "D2", description := "", tag := 7 }

/-- Environment of the C2 scenario. -/
def exEnv2 : Env :=
  { registry := [exD1, exD2],
    tagType := fun t => t,
    tagReadonly := fun _ => false,
    storefRc := fun _ _ _ => 0,
    editboxEdit := fun v _ => v }

/-- Root scope of the C2 scenario: childless, tag magic matching both
descriptors, so the display list is [Setting D1, Setting D2]. -/
def exRoot2 : Scope := Scope.mk "" 7 []

/-- Store of the C2 scenario: D1 has a stored value at the root. -/
def exStore2 : Store := [([], 7, "v1")]

theorem session_init_C2_eval :
    session_init exEnv2 exRoot2 exStore2 [] =
      { widget :=
          { settings := [], total_rows := 2, first_visible := 0,
            ro := RowObject.settingRow exD1, row := 3, col := 1,
            editing := false, value := "v1" },
        current := 0,
        store := exStore2,
        events := [] } := by
  simp [session_init, init_widget, reveal, jumpDown, jumpUp, usub32, UINT_MOD,
    SETTINGS_LIST_ROWS, SETTINGS_LIST_ROW, SETTINGS_LIST_COL, select_setting,
    load_setting, loadValue, fetchf_setting, fetchSub, fetchChildren,
    storeLookup, scopeAt, Scope.sub, row, rowObjects, rowCount, relevant,
    relevantAny, exEnv2, exRoot2, exStore2, Scope.children, Scope.name,
    RowObject.cntOf, UINT_MAX, exD1, exD2]

/-- Counterexample to C2 as stated: in the C2 scenario the Setting row D1 is
selected at index 0, which is not the last row (total 2); pressing the
delete key does NOT decrease `total_rows` (it stays 2 — the code never
recomputes it, and the enumeration itself is unchanged because rows list
registry descriptors, whose tag-based relevance does not depend on stored
values), and the newly selected row at index 0 is still Setting D1, not the
prior row(1) = Setting D2. -/
theorem claim_C2_counterexample :
    (session_init exEnv2 exRoot2 exStore2 []).widget.ro =
      RowObject.settingRow exD1 ∧
    (session_init exEnv2 exRoot2 exStore2 []).current = 0 ∧
    (session_init exEnv2 exRoot2 exStore2 []).widget.total_rows = 2 ∧
    row exEnv2 exRoot2 [] 1 = RowObject.settingRow exD2 ∧
    ¬ ((main_loop_step exEnv2 exRoot2 (session_init exEnv2 exRoot2 exStore2 [])
          Key.ctrlD).2.widget.total_rows =
        (session_init exEnv2 exRoot2 exStore2 []).widget.total_rows - 1) ∧
    ¬ ((main_loop_step exEnv2 exRoot2 (session_init exEnv2 exRoot2 exStore2 [])
          Key.ctrlD).2.widget.ro = RowObject.settingRow exD2) := by
  rw [session_init_C2_eval]
  refine ⟨rfl, rfl, rfl, by decide, ?_, ?_⟩
  · decide
  · decide

/-- C2 amended: pressing the delete key on a selected Setting row deletes
the stored value from the store (a subsequent local fetch finds nothing)
but leaves `total_rows`, the scope, the selection index and the selected
row object unchanged — the row enumeration lists registry descriptors,
whose relevance is tag-based and unaffected by deletion, and the code
re-selects the same index without recomputing row counts. -/
theorem claim_C2_amended (env : Env) (root : Scope) (st : LoopState)
    (d : Setting)
    (hv : st.widget.editing = false)
    (hro : st.widget.ro = RowObject.settingRow d)
    (hcons : st.widget.ro = row env root st.widget.settings st.current) :
    (main_loop_step env root st Key.ctrlD).1 = Ctrl.next ∧
    (main_loop_step env root st Key.ctrlD).2.store =
      delete_setting st.store st.widget.settings d.tag ∧
    (main_loop_step env root st Key.ctrlD).2.current = st.current ∧
    (main_loop_step env root st Key.ctrlD).2.widget.total_rows =
      st.widget.total_rows ∧
    (main_loop_step env root st Key.ctrlD).2.widget.settings =
      st.widget.settings ∧
    (main_loop_step env root st Key.ctrlD).2.widget.ro = st.widget.ro ∧
    storeLookup (main_loop_step env root st Key.ctrlD).2.store
      st.widget.settings d.tag = none := by
  have hstep : main_loop_step env root st Key.ctrlD =
      (Ctrl.next,
       { st with
         widget := select_setting env root
           (delete_setting st.store st.widget.settings d.tag) st.widget
           st.current,
         store := delete_setting st.store st.widget.settings d.tag }) := by
    simp [main_loop_step, hv, handle_viewing, hro]
  rw [hstep]
  refine ⟨rfl, rfl, rfl, rfl, rfl, ?_, storeLookup_delete _ _ _⟩
  rw [select_setting_ro]
  exact hcons.symm

/-- Witness for the amended C2 in the C2 scenario: the store entry is gone,
everything else is as before. -/
theorem claim_C2_amended_witness :
    (main_loop_step exEnv2 exRoot2 (session_init exEnv2 exRoot2 exStore2 [])
        Key.ctrlD).2.store = [] ∧
    (main_loop_step exEnv2 exRoot2 (session_init exEnv2 exRoot2 exStore2 [])
        Key.ctrlD).2.widget.total_rows = 2 ∧
    (main_loop_step exEnv2 exRoot2 (session_init exEnv2 exRoot2 exStore2 [])
        Key.ctrlD).2.widget.ro = RowObject.settingRow exD1 := by
  have h := claim_C2_amended exEnv2 exRoot2
    (session_init exEnv2 exRoot2 exStore2 []) exD1
    (by rw [session_init_C2_eval]) (by rw [session_init_C2_eval])
    (by rw [session_init_C2_eval]; decide)
  refine ⟨?_, ?_, ?_⟩
  · rw [h.2.1, session_init_C2_eval]
    decide
  · rw [h.2.2.2.1, session_init_C2_eval]
  · rw [h.2.2.2.2.2.1, session_init_C2_eval]

/-! ## Claim C6: first_visible is always a multiple of the page size -/

theorem reveal_fv_mod (env : Env) (root : Scope) (st : Store) (w : Widget)
    (n : Nat) (h : w.first_visible % SETTINGS_LIST_ROWS = 0) :
    (reveal env root st w n).first_visible % SETTINGS_LIST_ROWS = 0 := by
  unfold reveal
  split
  · exact h
  · rw [select_setting_first_visible]
    show jumpUp (jumpDown w.first_visible n) n % SETTINGS_LIST_ROWS = 0
    refine jumpUp_mod _ _ ?_
    rw [jumpDown_mod]
    exact h

theorem init_widget_fv_mod (env : Env) (root : Scope) (st : Store)
    (p : List Nat) :
    (init_widget env root st p).first_visible % SETTINGS_LIST_ROWS = 0 := by
  unfold init_widget
  exact reveal_fv_mod env root st _ 0 (by simp [SETTINGS_LIST_ROWS])

theorem handle_editing_fv (env : Env) (root : Scope) (st : LoopState)
    (key : Key) :
    (handle_editing env root st key).widget.first_visible =
      st.widget.first_visible := by
  cases key <;> simp [handle_editing, edit_editbox, load_setting]

theorem try_edit_fv (env : Env) (st : LoopState) (key : Key) :
    (try_edit env st key).2.widget.first_visible = st.widget.first_visible := by
  unfold try_edit
  split
  · split
    · rfl
    · rfl
  · rfl

theorem do_move_fv_mod (env : Env) (root : Scope) (st : LoopState) (n : Nat)
    (h : st.widget.first_visible % SETTINGS_LIST_ROWS = 0) :
    (do_move env root st n).widget.first_visible % SETTINGS_LIST_ROWS = 0 := by
  unfold do_move
  show (select_setting env root st.store
      (reveal env root st.store st.widget n) n).first_visible %
      SETTINGS_LIST_ROWS = 0
  rw [select_setting_first_visible]
  exact reveal_fv_mod env root st.store st.widget n h

theorem handle_confirm_fv (env : Env) (st : LoopState) (key : Key) :
    (handle_confirm env st key).2.widget.first_visible =
      st.widget.first_visible := by
  unfold handle_confirm
  split
  · rfl
  · rfl
  · rfl
  · exact try_edit_fv env st key

theorem main_loop_step_fv_mod (env : Env) (root : Scope) (st : LoopState)
    (key : Key) (h : st.widget.first_visible % SETTINGS_LIST_ROWS = 0) :
    (main_loop_step env root st key).2.widget.first_visible %
      SETTINGS_LIST_ROWS = 0 := by
  unfold main_loop_step
  split
  · rw [handle_editing_fv]
    exact h
  · cases key with
    | down =>
      simp only [handle_viewing]
      split
      · exact do_move_fv_mod env root st _ h
      · exact h
    | up =>
      simp only [handle_viewing]
      split
      · exact do_move_fv_mod env root st _ h
      · exact h
    | ctrlD =>
      simp only [handle_viewing]
      split
      · show (select_setting env root
            (delete_setting st.store st.widget.settings _) st.widget
            st.current).first_visible % SETTINGS_LIST_ROWS = 0
        rw [select_setting_first_visible]
        exact h
      · exact h
    | ctrlX => exact h
    | cr =>
      simp only [handle_viewing]
      rw [handle_confirm_fv]
      exact h
    | lf =>
      simp only [handle_viewing]
      rw [handle_confirm_fv]
      exact h
    | ctrlC =>
      simp only [handle_viewing]
      rw [try_edit_fv]
      exact h
    | ch c =>
      simp only [handle_viewing]
      rw [try_edit_fv]
      exact h

theorem session_step_fv_mod (env : Env) (root : Scope) (st st' : LoopState)
    (key : Key) (h : st.widget.first_visible % SETTINGS_LIST_ROWS = 0)
    (hs : session_step env root st key = some st') :
    st'.widget.first_visible % SETTINGS_LIST_ROWS = 0 := by
  unfold session_step at hs
  have hm := main_loop_step_fv_mod env root st key h
  rcases hstep : main_loop_step env root st key with ⟨ctrl, st2⟩
  rw [hstep] at hs hm
  cases ctrl with
  | next =>
    cases hs
    exact hm
  | quit => cases hs
  | navigate q =>
    cases hs
    exact init_widget_fv_mod env root st2.store q

theorem session_run_fv_mod (env : Env) (root : Scope) (keys : List Key) :
    ∀ st st', st.widget.first_visible % SETTINGS_LIST_ROWS = 0 →
      session_run env root st keys = some st' →
      st'.widget.first_visible % SETTINGS_LIST_ROWS = 0 := by
  induction keys with
  | nil =>
    intro st st' h hrun
    cases hrun
    exact h
  | cons k ks ih =>
    intro st st' h hrun
    unfold session_run at hrun
    rcases hstep : session_step env root st k with _ | st2
    · rw [hstep] at hrun
      cases hrun
    · rw [hstep] at hrun
      exact ih st2 st' (session_step_fv_mod env root st st2 k h hstep) hrun

/-- C6: in every reachable state of the widget session — any state obtained
from the session entry point by any sequence of keys — `first_visible` is
congruent to 0 modulo the page size `SETTINGS_LIST_ROWS`: it is initialised
to a multiple of the page size and `reveal` only moves it by whole pages. -/
theorem claim_C6_first_visible_page_aligned (env : Env) (root : Scope)
    (store : Store) (p : List Nat) (keys : List Key) (st' : LoopState)
    (h : session_run env root (session_init env root store p) keys =
      some st') :
    st'.widget.first_visible % SETTINGS_LIST_ROWS = 0 := by
  refine session_run_fv_mod env root keys _ st' ?_ h
  exact init_widget_fv_mod env root store p

/-- Witness for C6: the freshly initialised session on Example B (empty key
sequence) has a page-aligned first visible row. -/
theorem claim_C6_first_visible_page_aligned_witness :
    (session_init exEnvB exRootB [] [0]).widget.first_visible %
      SETTINGS_LIST_ROWS = 0 :=
  claim_C6_first_visible_page_aligned exEnvB exRootB [] [0] []
    (session_init exEnvB exRootB [] [0]) rfl

/-! ## Claim C8: the selection stays within the row count -/

theorem Scope.sub_append (root : Scope) (a b : List Nat) :
    Scope.sub root (a ++ b) = (Scope.sub root a).bind
      (fun s => Scope.sub s b) := by
  induction a generalizing root with
  | nil => rfl
  | cons i is ih =>
    simp only [List.cons_append, Scope.sub]
    rcases hc : root.children[i]? with _ | c
    · simp [hc]
    · simp [hc, ih c]

theorem sub_isSome_dropLast (root : Scope) (p : List Nat)
    (h : (Scope.sub root p).isSome) :
    (Scope.sub root p.dropLast).isSome := by
  by_cases hp : p = []
  · subst hp
    simpa using h
  · have hdec : p.dropLast ++ [p.getLast hp] = p :=
      List.dropLast_append_getLast hp
    rw [← hdec, Scope.sub_append] at h
    rcases hs : Scope.sub root p.dropLast with _ | s
    · rw [hs] at h
      simp at h
    · simp

theorem sub_isSome_child (root : Scope) (p : List Nat) (i : Nat)
    (h : (Scope.sub root p).isSome)
    (hi : i < (scopeAt root p).children.length) :
    (Scope.sub root (p ++ [i])).isSome := by
  rw [Scope.sub_append]
  rcases hs : Scope.sub root p with _ | s
  · rw [hs] at h
    simp at h
  · have hsc : scopeAt root p = s := by
      rw [scopeAt, hs]
      rfl
    rw [hsc] at hi
    rcases hg : s.children[i]? with _ | c
    · rw [List.getElem?_eq_none_iff] at hg
      omega
    · simp [Scope.sub, hg]

theorem rowCount_pos_of_ne_nil (env : Env) (root : Scope) (q : List Nat)
    (hq : q ≠ []) : 0 < rowCount env root q := by
  rw [rowCount_eq]
  have hpc : parentCnt q = 1 := by
    rw [parentCnt, if_neg]
    intro hie
    exact hq (List.isEmpty_iff.mp hie)
  omega

theorem rowCount_pos_parent (env : Env) (root : Scope) (p : List Nat)
    (hv : (Scope.sub root p).isSome) (hp : p ≠ []) :
    0 < rowCount env root p.dropLast := by
  rw [rowCount_eq]
  have hch : 0 < (scopeAt root p.dropLast).children.length := by
    have hdec : p.dropLast ++ [p.getLast hp] = p :=
      List.dropLast_append_getLast hp
    rw [← hdec, Scope.sub_append] at hv
    rcases hs : Scope.sub root p.dropLast with _ | s
    · rw [hs] at hv
      simp at hv
    · have hsc : scopeAt root p.dropLast = s := by
        rw [scopeAt, hs]
        rfl
      rw [hs] at hv
      rw [hsc]
      rcases hg : s.children[p.getLast hp]? with _ | c
      · simp [Scope.sub, hg] at hv
      · have hlt : p.getLast hp < s.children.length := by
          by_contra hge
          rw [List.getElem?_eq_none_iff.mpr (by omega)] at hg
          cases hg
        omega
  omega

theorem init_widget_eq (env : Env) (root : Scope) (st : Store)
    (p : List Nat) :
    init_widget env root st p =
      select_setting env root st
        { settings := p, total_rows := (row env root p UINT_MAX).cntOf,
          first_visible := jumpUp (jumpDown SETTINGS_LIST_ROWS 0) 0,
          ro := RowObject.rowCnt 0, row := 0, col := 0, editing := false,
          value := "" } 0 := by
  unfold init_widget reveal
  rw [if_neg]
  show ¬ usub32 0 SETTINGS_LIST_ROWS < SETTINGS_LIST_ROWS
  decide

theorem init_widget_settings (env : Env) (root : Scope) (st : Store)
    (p : List Nat) : (init_widget env root st p).settings = p := by
  rw [init_widget_eq, select_setting_settings]

theorem init_widget_total (env : Env) (root : Scope) (st : Store)
    (p : List Nat) (hb : rowCount env root p ≤ UINT_MAX) :
    (init_widget env root st p).total_rows = rowCount env root p := by
  rw [init_widget_eq, select_setting_total_rows]
  show (row env root p UINT_MAX).cntOf = rowCount env root p
  rw [row_past_end env root p UINT_MAX hb]
  rfl

theorem init_widget_ro (env : Env) (root : Scope) (st : Store)
    (p : List Nat) : (init_widget env root st p).ro = row env root p 0 := by
  rw [init_widget_eq, select_setting_ro]

theorem init_widget_editing (env : Env) (root : Scope) (st : Store)
    (p : List Nat) : (init_widget env root st p).editing = false := by
  rw [init_widget_eq, select_setting_editing]

/-- The navigator loop invariant behind C8: the widget's settings block is a
scope of the tree, its cached total row count is the true row count, the
selection is within bounds, and the selected row object is the row at the
selection index. -/
structure InvC8 (env : Env) (root : Scope) (st : LoopState) : Prop where
  val : (Scope.sub root st.widget.settings).isSome
  tot : st.widget.total_rows = rowCount env root st.widget.settings
  cur : st.current < st.widget.total_rows
  rowo : st.widget.ro = row env root st.widget.settings st.current

theorem handle_editing_proj (env : Env) (root : Scope) (st : LoopState)
    (key : Key) :
    (handle_editing env root st key).widget.settings = st.widget.settings ∧
    (handle_editing env root st key).widget.total_rows =
      st.widget.total_rows ∧
    (handle_editing env root st key).widget.ro = st.widget.ro ∧
    (handle_editing env root st key).current = st.current := by
  cases key <;> simp [handle_editing, edit_editbox, load_setting]

theorem try_edit_proj (env : Env) (st : LoopState) (key : Key) :
    (try_edit env st key).1 = Ctrl.next ∧
    (try_edit env st key).2.widget.settings = st.widget.settings ∧
    (try_edit env st key).2.widget.total_rows = st.widget.total_rows ∧
    (try_edit env st key).2.widget.ro = st.widget.ro ∧
    (try_edit env st key).2.current = st.current := by
  unfold try_edit
  split
  · split
    · exact ⟨rfl, rfl, rfl, rfl, rfl⟩
    · exact ⟨rfl, rfl, rfl, rfl, rfl⟩
  · exact ⟨rfl, rfl, rfl, rfl, rfl⟩

theorem do_move_proj (env : Env) (root : Scope) (st : LoopState) (n : Nat) :
    (do_move env root st n).widget.settings = st.widget.settings ∧
    (do_move env root st n).widget.total_rows = st.widget.total_rows ∧
    (do_move env root st n).current = n ∧
    (do_move env root st n).widget.ro =
      row env root st.widget.settings n := by
  refine ⟨?_, ?_, rfl, ?_⟩
  · show (select_setting env root st.store
        (reveal env root st.store st.widget n) n).settings = _
    rw [select_setting_settings, reveal_settings]
  · show (select_setting env root st.store
        (reveal env root st.store st.widget n) n).total_rows = _
    rw [select_setting_total_rows, reveal_total_rows]
  · show (select_setting env root st.store
        (reveal env root st.store st.widget n) n).ro = _
    rw [select_setting_ro, reveal_settings]

theorem try_edit_inv (env : Env) (root : Scope) (st : LoopState) (key : Key)
    (ctrl : Ctrl) (st2 : LoopState) (hinv : InvC8 env root st)
    (hstep : try_edit env st key = (ctrl, st2)) :
    ctrl = Ctrl.next ∧ InvC8 env root st2 := by
  obtain ⟨hval, htot, hcur, hro⟩ := hinv
  obtain ⟨hp1, hp2, hp3, hp4, hp5⟩ := try_edit_proj env st key
  have h1 := congrArg Prod.fst hstep
  have h2 := congrArg Prod.snd hstep
  simp only at h1 h2
  subst h2
  refine ⟨by rw [← h1, hp1], ?_, ?_, ?_, ?_⟩
  · rw [hp2]
    exact hval
  · rw [hp3, hp2]
    exact htot
  · rw [hp5, hp3]
    exact hcur
  · rw [hp4, hp2, hp5]
    exact hro

theorem do_move_inv (env : Env) (root : Scope) (st : LoopState) (n : Nat)
    (hinv : InvC8 env root st) (hn : n < st.widget.total_rows) :
    InvC8 env root (do_move env root st n) := by
  obtain ⟨hval, htot, hcur, hro⟩ := hinv
  obtain ⟨hp1, hp2, hp3, hp4⟩ := do_move_proj env root st n
  refine ⟨?_, ?_, ?_, ?_⟩
  · rw [hp1]
    exact hval
  · rw [hp2, hp1]
    exact htot
  · rw [hp3, hp2]
    exact hn
  · rw [hp4, hp1, hp3]

/-- The target of a Parent or Child row produced by the enumerator at an
in-range index is itself a scope of the tree with at least one row. -/
theorem row_target_ok (env : Env) (root : Scope) (p : List Nat) (n : Nat)
    (hval : (Scope.sub root p).isSome) (hn : n < rowCount env root p) :
    (∀ q, row env root p n = RowObject.parentRow q →
      (Scope.sub root q).isSome ∧ 0 < rowCount env root q) ∧
    (∀ q, row env root p n = RowObject.childRow q →
      (Scope.sub root q).isSome ∧ 0 < rowCount env root q) := by
  rcases row_mem_or_cnt env root p n with ⟨_, hmem⟩ | ⟨hge, _⟩
  · constructor
    · intro q hq
      rw [hq] at hmem
      obtain ⟨hne, hdrop⟩ := parentRow_mem env root p q hmem
      have hpne : p ≠ [] := by
        intro hpe
        subst hpe
        exact hne rfl
      subst hdrop
      exact ⟨sub_isSome_dropLast root p hval,
        rowCount_pos_parent env root p hval hpne⟩
    · intro q hq
      rw [hq] at hmem
      obtain ⟨i, hi, hqe⟩ := childRow_mem env root p q hmem
      subst hqe
      refine ⟨sub_isSome_child root p i hval hi, ?_⟩
      refine rowCount_pos_of_ne_nil env root _ ?_
      simp
  · omega

theorem main_loop_step_inv (env : Env) (root : Scope) (st st2 : LoopState)
    (key : Key) (ctrl : Ctrl)
    (hb : ∀ q, (Scope.sub root q).isSome → rowCount env root q ≤ UINT_MAX)
    (hinv : InvC8 env root st)
    (hstep : main_loop_step env root st key = (ctrl, st2)) :
    (ctrl = Ctrl.next → InvC8 env root st2) ∧
    (∀ q, ctrl = Ctrl.navigate q →
      (Scope.sub root q).isSome ∧ 0 < rowCount env root q) := by
  obtain ⟨hval, htot, hcur, hro⟩ := hinv
  unfold main_loop_step at hstep
  split at hstep
  · injection hstep with hc hs2
    subst hc
    subst hs2
    obtain ⟨hp1, hp2, hp3, hp4⟩ := handle_editing_proj env root st key
    refine ⟨fun _ => ⟨?_, ?_, ?_, ?_⟩, fun q hq => by cases hq⟩
    · rw [hp1]
      exact hval
    · rw [hp2, hp1]
      exact htot
    · rw [hp4, hp2]
      exact hcur
    · rw [hp3, hp1, hp4]
      exact hro
  · cases key with
    | down =>
      simp only [handle_viewing] at hstep
      split at hstep
      · injection hstep with hc hs2
        subst hc
        subst hs2
        refine ⟨fun _ => ?_, fun q hq => by cases hq⟩
        refine do_move_inv env root st _ ⟨hval, htot, hcur, hro⟩ ?_
        have hle : rowCount env root st.widget.settings ≤ UINT_MAX :=
          hb _ hval
        have hg : usub32 st.widget.total_rows 1 = st.widget.total_rows - 1 :=
          usub32_of_le _ 1 (by omega) (by rw [UINT_MOD]; rw [UINT_MAX] at hle; omega)
        omega
      · injection hstep with hc hs2
        subst hc
        subst hs2
        exact ⟨fun _ => ⟨hval, htot, hcur, hro⟩, fun q hq => by cases hq⟩
    | up =>
      simp only [handle_viewing] at hstep
      split at hstep
      · injection hstep with hc hs2
        subst hc
        subst hs2
        refine ⟨fun _ => ?_, fun q hq => by cases hq⟩
        refine do_move_inv env root st _ ⟨hval, htot, hcur, hro⟩ ?_
        omega
      · injection hstep with hc hs2
        subst hc
        subst hs2
        exact ⟨fun _ => ⟨hval, htot, hcur, hro⟩, fun q hq => by cases hq⟩
    | ctrlD =>
      simp only [handle_viewing] at hstep
      split at hstep
      · injection hstep with hc hs2
        subst hc
        subst hs2
        refine ⟨fun _ => ⟨?_, ?_, ?_, ?_⟩, fun q hq => by cases hq⟩
        · rw [select_setting_settings]
          exact hval
        · rw [select_setting_total_rows, select_setting_settings]
          exact htot
        · rw [select_setting_total_rows]
          exact hcur
        · rw [select_setting_ro, select_setting_settings]
      · injection hstep with hc hs2
        subst hc
        subst hs2
        exact ⟨fun _ => ⟨hval, htot, hcur, hro⟩, fun q hq => by cases hq⟩
    | ctrlX =>
      injection hstep with hc hs2
      subst hc
      subst hs2
      exact ⟨(fun h => nomatch h), (fun q hq => nomatch hq)⟩
    | cr =>
      simp only [handle_viewing] at hstep
      rcases hros : st.widget.ro with pp | cp | d | c <;>
        rw [hros] at hro <;> simp only [handle_confirm, hros] at hstep
      · injection hstep with hc hs2
        subst hc
        subst hs2
        refine ⟨(fun h => nomatch h), fun q hq => ?_⟩
        injection hq with hq2
        subst hq2
        exact (row_target_ok env root st.widget.settings st.current hval
          (by omega)).1 pp hro.symm
      · injection hstep with hc hs2
        subst hc
        subst hs2
        refine ⟨(fun h => nomatch h), fun q hq => ?_⟩
        injection hq with hq2
        subst hq2
        exact (row_target_ok env root st.widget.settings st.current hval
          (by omega)).2 cp hro.symm
      · have h := try_edit_inv env root st Key.cr ctrl st2
          ⟨hval, htot, hcur, by rw [hros]; exact hro⟩ hstep
        exact ⟨fun _ => h.2, fun q hq => by rw [h.1] at hq; cases hq⟩
      · injection hstep with hc hs2
        subst hc
        subst hs2
        exact ⟨(fun h => nomatch h), (fun q hq => nomatch hq)⟩
    | lf =>
      simp only [handle_viewing] at hstep
      rcases hros : st.widget.ro with pp | cp | d | c <;>
        rw [hros] at hro <;> simp only [handle_confirm, hros] at hstep
      · injection hstep with hc hs2
        subst hc
        subst hs2
        refine ⟨(fun h => nomatch h), fun q hq => ?_⟩
        injection hq with hq2
        subst hq2
        exact (row_target_ok env root st.widget.settings st.current hval
          (by omega)).1 pp hro.symm
      · injection hstep with hc hs2
        subst hc
        subst hs2
        refine ⟨(fun h => nomatch h), fun q hq => ?_⟩
        injection hq with hq2
        subst hq2
        exact (row_target_ok env root st.widget.settings st.current hval
          (by omega)).2 cp hro.symm
      · have h := try_edit_inv env root st Key.lf ctrl st2
          ⟨hval, htot, hcur, by rw [hros]; exact hro⟩ hstep
        exact ⟨fun _ => h.2, fun q hq => by rw [h.1] at hq; cases hq⟩
      · injection hstep with hc hs2
        subst hc
        subst hs2
        exact ⟨(fun h => nomatch h), (fun q hq => nomatch hq)⟩
    | ctrlC =>
      simp only [handle_viewing] at hstep
      have h := try_edit_inv env root st Key.ctrlC ctrl st2
        ⟨hval, htot, hcur, hro⟩ hstep
      exact ⟨fun _ => h.2, fun q hq => by rw [h.1] at hq; cases hq⟩
    | ch c =>
      simp only [handle_viewing] at hstep
      have h := try_edit_inv env root st (Key.ch c) ctrl st2
        ⟨hval, htot, hcur, hro⟩ hstep
      exact ⟨fun _ => h.2, fun q hq => by rw [h.1] at hq; cases hq⟩

theorem session_init_inv (env : Env) (root : Scope) (store : Store)
    (p : List Nat) (hv : (Scope.sub root p).isSome)
    (hpos : 0 < rowCount env root p)
    (hb : ∀ q, (Scope.sub root q).isSome → rowCount env root q ≤ UINT_MAX) :
    InvC8 env root (session_init env root store p) := by
  refine ⟨?_, ?_, ?_, ?_⟩
  · show (Scope.sub root (init_widget env root store p).settings).isSome
    rw [init_widget_settings]
    exact hv
  · show (init_widget env root store p).total_rows =
      rowCount env root (init_widget env root store p).settings
    rw [init_widget_settings, init_widget_total env root store p (hb p hv)]
  · show (0 : Nat) < (init_widget env root store p).total_rows
    rw [init_widget_total env root store p (hb p hv)]
    exact hpos
  · show (init_widget env root store p).ro =
      row env root (init_widget env root store p).settings 0
    rw [init_widget_ro, init_widget_settings]

theorem session_step_inv (env : Env) (root : Scope) (st st' : LoopState)
    (key : Key)
    (hb : ∀ q, (Scope.sub root q).isSome → rowCount env root q ≤ UINT_MAX)
    (hinv : InvC8 env root st)
    (hs : session_step env root st key = some st') :
    InvC8 env root st' := by
  unfold session_step at hs
  rcases hstep : main_loop_step env root st key with ⟨ctrl, st2⟩
  rw [hstep] at hs
  have h := main_loop_step_inv env root st st2 key ctrl hb hinv hstep
  cases ctrl with
  | next =>
    cases hs
    exact h.1 rfl
  | quit => cases hs
  | navigate q =>
    cases hs
    obtain ⟨hqv, hqpos⟩ := h.2 q rfl
    refine ⟨?_, ?_, ?_, ?_⟩
    · show (Scope.sub root (init_widget env root st2.store q).settings).isSome
      rw [init_widget_settings]
      exact hqv
    · show (init_widget env root st2.store q).total_rows =
        rowCount env root (init_widget env root st2.store q).settings
      rw [init_widget_settings, init_widget_total env root st2.store q
        (hb q hqv)]
    · show (0 : Nat) < (init_widget env root st2.store q).total_rows
      rw [init_widget_total env root st2.store q (hb q hqv)]
      exact hqpos
    · show (init_widget env root st2.store q).ro =
        row env root (init_widget env root st2.store q).settings 0
      rw [init_widget_ro, init_widget_settings]

theorem session_run_inv (env : Env) (root : Scope)
    (hb : ∀ q, (Scope.sub root q).isSome → rowCount env root q ≤ UINT_MAX)
    (keys : List Key) :
    ∀ st st', InvC8 env root st →
      session_run env root st keys = some st' → InvC8 env root st' := by
  induction keys with
  | nil =>
    intro st st' h hrun
    cases hrun
    exact h
  | cons k ks ih =>
    intro st st' h hrun
    unfold session_run at hrun
    rcases hstep : session_step env root st k with _ | st2
    · rw [hstep] at hrun
      cases hrun
    · rw [hstep] at hrun
      exact ih st2 st' (session_step_inv env root st st2 k hb h hstep) hrun

/-- C8 amended: in every reachable state of the navigator session — started
on a scope of the tree with at least one row, with every scope's row count
fitting in an unsigned int — the selected index lies within
[0, total rows) for the current scope, and the cached total equals the true
row count.  (The original claim's "including a scope with zero rows" is
false: see the counterexample.) -/
theorem claim_C8_selection_in_bounds (env : Env) (root : Scope)
    (store : Store) (p : List Nat) (keys : List Key) (st' : LoopState)
    (hv : (Scope.sub root p).isSome)
    (hpos : 0 < rowCount env root p)
    (hb : ∀ q, (Scope.sub root q).isSome → rowCount env root q ≤ UINT_MAX)
    (hrun : session_run env root (session_init env root store p) keys =
      some st') :
    st'.current < st'.widget.total_rows ∧
    st'.widget.total_rows = rowCount env root st'.widget.settings := by
  have h := session_run_inv env root hb keys (session_init env root store p)
    st' (session_init_inv env root store p hv hpos hb) hrun
  exact ⟨h.cur, h.tot⟩

/-- Environment with an empty registry (no settings at all). -/
def exEnv0 : Env :=
  { registry := [],
    tagType := fun t => t,
    tagReadonly := fun _ => false,
    storefRc := fun _ _ _ => 0,
    editboxEdit := fun v _ => v }

/-- A root scope with no parent, no children and (with `exEnv0`) no relevant
settings: zero rows. -/
def exRoot0 : Scope := Scope.mk "" 0 []

/-- Counterexample to C8 as stated: on a zero-row scope the initial state of
the session (reachable with the empty key sequence, not editing) has
selected index 0 and total rows 0 — the selected index is NOT within
[0, total rows), which is empty. -/
theorem claim_C8_counterexample :
    session_run exEnv0 exRoot0 (session_init exEnv0 exRoot0 [] []) [] =
      some (session_init exEnv0 exRoot0 [] []) ∧
    (session_init exEnv0 exRoot0 [] []).widget.editing = false ∧
    (session_init exEnv0 exRoot0 [] []).widget.total_rows = 0 ∧
    (session_init exEnv0 exRoot0 [] []).current = 0 ∧
    ¬ ((session_init exEnv0 exRoot0 [] []).current <
        (session_init exEnv0 exRoot0 [] []).widget.total_rows) := by
  have htot : (session_init exEnv0 exRoot0 [] []).widget.total_rows = 0 := by
    show (init_widget exEnv0 exRoot0 [] []).total_rows = 0
    rw [init_widget_total exEnv0 exRoot0 [] [] (by decide)]
    decide
  have hcur : (session_init exEnv0 exRoot0 [] []).current = 0 := rfl
  refine ⟨rfl, init_widget_editing exEnv0 exRoot0 [] [], htot, hcur, ?_⟩
  rw [hcur, htot]
  omega

/-- Environment for the C8 witness: empty registry. -/
def exEnvW : Env :=
  { registry := [],
    tagType := fun t => t,
    tagReadonly := fun _ => false,
    storefRc := fun _ _ _ => 0,
    editboxEdit := fun v _ => v }

/-- Tree for the C8 witness: a root with a single child; the child scope
(path [0]) has exactly one row (its Parent row). -/
def exRootW : Scope := Scope.mk "" 0 [Scope.mk "c" 5 []]

theorem exRootW_bound :
    ∀ q, (Scope.sub exRootW q).isSome →
      rowCount exEnvW exRootW q ≤ UINT_MAX := by
  intro q hq
  match q with
  | [] => decide
  | i :: is =>
    cases i with
    | zero =>
      cases is with
      | nil => decide
      | cons j js =>
        simp [Scope.sub, exRootW, Scope.children] at hq
    | succ k =>
      simp [Scope.sub, exRootW, Scope.children] at hq

/-- Witness for C8 (amended) at the child scope of `exRootW` with the empty
key sequence. -/
theorem claim_C8_selection_in_bounds_witness :
    (session_init exEnvW exRootW [] [0]).current <
      (session_init exEnvW exRootW [] [0]).widget.total_rows ∧
    (session_init exEnvW exRootW [] [0]).widget.total_rows =
      rowCount exEnvW exRootW [0] :=
  claim_C8_selection_in_bounds exEnvW exRootW [] [0] []
    (session_init exEnvW exRootW [] [0]) (by decide) (by decide)
    exRootW_bound rfl
